import Mathlib

/-!
Shallow embedding of `src/client.py`, a minimal HTTP client library
(`Response`, `ClientBase`, `Client`).

External collaborators (the transport/socket layer, `urllib.parse.urlparse`,
`json.dumps`/`json.loads`, `gzip.decompress`, `zlib.decompress`, UTF-8
encode/decode) are modelled as components of an environment record `Env`:
the client code under verification never inspects their internals, it only
calls them, exactly as the source does.

Python dictionaries are modelled as insertion-ordered association lists with
unique keys (`HMap`): `m.set k v` replaces the value at the first occurrence
of `k` in place or appends, which is Python dict assignment; `{**a, **b}` is
`HMap.merge a b`.  Exceptions are modelled with `Except ClientError`.
Connection lifecycle and transport calls are recorded in an event trace so
that resource claims (open/close pairing, number of network calls) are
statable.
-/

set_option autoImplicit false

/-- JSON values, as produced by the external `json` codec.  Numbers are
modelled as integers (the payloads of interest use only integers). -/
inductive Json where
  | null : Json
  | bool (b : Bool) : Json
  | num (n : Int) : Json
  | str (s : String) : Json
  | arr (elems : List Json) : Json
  | obj (fields : List (String × Json)) : Json

/-- A dynamically typed Python value as it may flow through the `data` /
`json_data` parameters of `_request` (the source is dynamically typed, and
`Client.post` in fact passes its arguments positionally in swapped order,
so a JSON dict can arrive in the `data` slot). -/
inductive PyVal where
  | pnone : PyVal
  | pstr (s : String) : PyVal
  | pbytes (b : List Nat) : PyVal
  | pdict (j : Json) : PyVal

/-- Python `dict[str, str]`: insertion-ordered association list with unique
keys. -/
def HMap : Type := List (String × String)

instance : DecidableEq HMap := by
  unfold HMap; infer_instance

namespace HMap

/-- `m[k] = v` on a Python dict: replace the value at the first occurrence of
`k` in place, else append the new binding. -/
def set (m : HMap) (k v : String) : HMap :=
  match m with
  | [] => [(k, v)]
  | (k0, v0) :: t => if k0 = k then (k0, v) :: t else (k0, v0) :: set t k v

/-- Dict lookup: first (only) binding of `k`. -/
def get? (m : HMap) (k : String) : Option String :=
  match m with
  | [] => none
  | (k0, v0) :: t => if k0 = k then some v0 else get? t k

/-- Python `{**a, **b}`: keys of `a` in order, overridden/extended by `b`. -/
def merge (a b : HMap) : HMap :=
  b.foldl (fun acc p => acc.set p.1 p.2) a

end HMap

/-- The errors the client can raise.  The source raises `RuntimeError` /
`NotImplementedError` / `TypeError`; the spec names the same conditions
`TooManyRedirects`, `MissingRedirectTarget`, `UnsupportedEncoding`,
`UnsupportedScheme`. -/
inductive ClientError where
  | tooManyRedirects : ClientError
  | missingLocation (status : Nat) : ClientError
  | unsupportedEncoding (enc : Option String) : ClientError
  | unsupportedScheme (scheme : String) : ClientError
  | codecFailure : ClientError
  | typeError : ClientError
deriving DecidableEq

/-- The result of `urllib.parse.urlparse` (the fields `_connect` reads).
Absent components are empty strings, as in Python. -/
structure ParseResult where
  scheme : String
  netloc : String
  path : String
  query : String

/-- An `http.client.HTTPResponse` as the client observes it: a status code,
a header lookup (`getheader`), and the raw body bytes (`read`). -/
structure HResp where
  status : Nat
  getheader : String → Option String
  body : List Nat

/-- Connection/transport events recorded by the embedded pipeline:
a connection object is created (`opened`), a request goes out on the wire
(`sent`, carrying everything handed to the transport), a connection is
closed (`closed`).  Connections are numbered per hop. -/
inductive Event where
  | opened (cid : Nat) : Event
  | sent (cid : Nat) (scheme host path method : String)
      (body : PyVal) (headers : HMap) : Event
  | closed (cid : Nat) : Event

/-- The external collaborators, bundled. -/
structure Env where
  /-- `urllib.parse.urlparse` -/
  urlparse : String → ParseResult
  /-- the transport: scheme, host, path, method, body, headers ↦ response -/
  transport : String → String → String → String → PyVal → HMap → HResp
  /-- `json.dumps` on a JSON value -/
  dumps : Json → String
  /-- `gzip.decompress`; `none` models a raised decompression error -/
  gzip : List Nat → Option (List Nat)
  /-- `zlib.decompress`; `none` models a raised decompression error -/
  deflate : List Nat → Option (List Nat)
  /-- `str.encode()` (UTF-8) -/
  utf8encode : String → List Nat
  /-- `bytes.decode("utf-8", errors="replace")` — total (lossy) -/
  utf8decode : List Nat → String

/-- The process-wide `ClientBase` class state: `default_headers` and the
tri-state `allow_redirects` flag. -/
structure Config where
  default_headers : HMap
  allow_redirects : Option Bool

/-- `ClientBase.redirect_status_codes`. -/
def redirectCodes : List Nat := [301, 302, 307, 308]

/-- `ClientBase.default_headers` as initially defined on the class. -/
def defaultHeaders : HMap :=
  [("User-Agent", "python-custom-client/1.0"),
   ("Accept-Encoding", "gzip, deflate"),
   ("Accept", "*/*"),
   ("Connection", "keep-alive")]

/-- The class state before any `init` call (`allow_redirects = None`). -/
def initialConfig : Config := ⟨defaultHeaders, none⟩

/-- `Response`: status code, headers, decoded text payload. -/
structure Response where
  status_code : Nat
  headers : HMap
  payload : String

/-- `Response.content`: the payload verbatim. -/
def Response.content (r : Response) : String := r.payload

/-- `Response.json`: parse the payload with the external `json.loads`
(modelled as `loads`, which either returns a value or raises), catching the
decode error and returning `None` in that case. -/
def Response.json (loads : String → Except String Json) (r : Response) :
    Option Json :=
  match loads r.payload with
  | .ok j => some j
  | .error _ => none

/-- `ClientBase.init`: merge `custom_headers` into the class default headers
when truthy (non-`None`, non-empty), and set `allow_redirects` to `True`
when the argument is truthy — `False` and `None` leave it untouched. -/
def ClientBase.init (custom_headers : Option HMap) (allow_redirects : Option Bool)
    (cfg : Config) : Config :=
  let hs :=
    match custom_headers with
    | some c => if c.isEmpty then cfg.default_headers else HMap.merge cfg.default_headers c
    | none => cfg.default_headers
  let ar := if allow_redirects = some true then some true else cfg.allow_redirects
  ⟨hs, ar⟩

/-- The scheme `_connect` works with: `parsed_url.scheme or "http"`. -/
def effScheme (p : ParseResult) : String :=
  if p.scheme = "" then "http" else p.scheme

/-- The full request path `_connect` computes: `parsed_url.path or "/"`,
with `"?" + query` appended when the query is non-empty. -/
def fullPath (p : ParseResult) : String :=
  let base := if p.path = "" then "/" else p.path
  if p.query = "" then base else base ++ "?" ++ p.query

/-- `ClientBase._connect`: parse the URL, default the scheme and path, and
create a scheme-appropriate connection; any scheme other than `http` /
`https` raises before a connection is created.  Returns
`(scheme, host, path)`. -/
def connect (env : Env) (raw_url : String) :
    Except ClientError (String × String × String) :=
  let p := env.urlparse raw_url
  let scheme := effScheme p
  let host := p.netloc
  let path := fullPath p
  if scheme = "https" then .ok (scheme, host, path)
  else if scheme = "http" then .ok (scheme, host, path)
  else .error (.unsupportedScheme scheme)

/-- `ClientBase._decode_payload`: dispatch on the exact value of the
`Content-Encoding` header — `"gzip"` and `"deflate"` decompress, anything
else (including an absent header) raises — then decode UTF-8 lossily. -/
def decodePayload (env : Env) (resp : HResp) : Except ClientError String :=
  let raw := resp.body
  let enc := resp.getheader "Content-Encoding"
  if enc = some "gzip" then
    match env.gzip raw with
    | some d => .ok (env.utf8decode d)
    | none => .error .codecFailure
  else if enc = some "deflate" then
    match env.deflate raw with
    | some d => .ok (env.utf8decode d)
    | none => .error .codecFailure
  else
    .error (.unsupportedEncoding enc)

/-- `json.dumps` applied to whatever arrived in the `json_data` slot: dicts
and strings serialize, bytes raise `TypeError`. -/
def jsonDumpsVal (env : Env) : PyVal → Except ClientError String
  | .pdict j => .ok (env.dumps j)
  | .pstr s => .ok (env.dumps (Json.str s))
  | .pbytes _ => .error .typeError
  | .pnone => .error .typeError

/-- Line 142–143 of the source: a `str` body is UTF-8 encoded to bytes,
everything else passes through unchanged. -/
def encodeData (env : Env) : PyVal → PyVal
  | .pstr s => .pbytes (env.utf8encode s)
  | d => d

/-- `ClientBase._request` (with `ClientBase._redirect` inlined at its single
call site, lines 153–158 → 92–97), instrumented with an event trace and a
per-hop connection id `cid`.  Faithful transcription:

* budget check `max_redirects < 0` raises `Too many redirects` before any
  URL resolution or connection;
* `_connect` (may raise on the scheme, before a connection exists);
* header merge `{**cls.default_headers, **(headers or {})}`;
* `json_data is not None` → `data = json.dumps(json_data)` and
  `headers["Content-Type"] = "application/json"`;
* `str` bodies are encoded to bytes;
* the request goes to the transport; on a redirect status with redirects
  allowed (per-call flag `True`, or per-call `None` with the class flag
  `True`), `_redirect` reads `Location` (raising, without closing, when it
  is `None` or empty), closes the connection, and recurses with
  `max_redirects - 1` — and with `allow_redirects` left at its default
  `None`, since `_redirect` does not pass it on;
* otherwise the payload is decoded (a decode error propagates without the
  connection being closed) and the connection is closed before the
  `Response` is returned. -/
def requestAux (env : Env) (cfg : Config) (method url : String)
    (headers : Option HMap) (json_data : PyVal) (data : PyVal)
    (max_redirects : Int) (allow_redirects : Option Bool) (cid : Nat) :
    Except ClientError Response × List Event :=
  if max_redirects < 0 then
    (.error .tooManyRedirects, [])
  else
    match connect env url with
    | .error e => (.error e, [])
    | .ok (scheme, host, path) =>
      let hs0 := HMap.merge cfg.default_headers (headers.getD [])
      let prepared : Except ClientError (HMap × PyVal) :=
        match json_data with
        | .pnone => .ok (hs0, data)
        | jd =>
          match jsonDumpsVal env jd with
          | .error e => .error e
          | .ok s => .ok (hs0.set "Content-Type" "application/json", .pstr s)
      match prepared with
      | .error e => (.error e, [.opened cid])
      | .ok (hs, data1) =>
        let body := encodeData env data1
        let resp := env.transport scheme host path method.toUpper body hs
        let ev : List Event :=
          [.opened cid, .sent cid scheme host path method.toUpper body hs]
        if resp.status ∈ redirectCodes ∧
            (allow_redirects = some true ∨
              (allow_redirects = none ∧ cfg.allow_redirects = some true)) then
          match resp.getheader "Location" with
          | none => (.error (.missingLocation resp.status), ev)
          | some loc =>
            if loc = "" then (.error (.missingLocation resp.status), ev)
            else
              let r := requestAux env cfg method loc (some hs) json_data body
                (max_redirects - 1) none (cid + 1)
              (r.1, ev ++ [.closed cid] ++ r.2)
        else
          match decodePayload env resp with
          | .error e => (.error e, ev)
          | .ok payload => (.ok ⟨resp.status, hs, payload⟩, ev ++ [.closed cid])
termination_by (max_redirects + 1).toNat
decreasing_by omega

/-- `ClientBase._request` with the source's default arguments
(`max_redirects=5`, `allow_redirects=None`), starting the connection
counter at 0. -/
def request (env : Env) (cfg : Config) (method url : String)
    (headers : Option HMap) (json_data : PyVal) (data : PyVal) :
    Except ClientError Response × List Event :=
  requestAux env cfg method url headers json_data data 5 none 0

/-- `Client.get`. -/
def Client.get (env : Env) (cfg : Config) (url : String) (headers : Option HMap) :
    Except ClientError Response × List Event :=
  request env cfg "GET" url headers .pnone .pnone

/-- `Client.post`, exactly as written: it passes
`(headers, data, json_data)` positionally into `_request`, whose parameter
order is `(headers, json_data, data)` — so `data` lands in the `json_data`
slot and `json_data` lands in the `data` slot. -/
def Client.post (env : Env) (cfg : Config) (url : String) (headers : Option HMap)
    (data : PyVal) (json_data : PyVal) :
    Except ClientError Response × List Event :=
  request env cfg "POST" url headers data json_data

/-- `Client.put`, same positional swap as `Client.post`. -/
def Client.put (env : Env) (cfg : Config) (url : String) (headers : Option HMap)
    (data : PyVal) (json_data : PyVal) :
    Except ClientError Response × List Event :=
  request env cfg "PUT" url headers data json_data

/-- `Client.patch`, same positional swap as `Client.post`. -/
def Client.patch (env : Env) (cfg : Config) (url : String) (headers : Option HMap)
    (data : PyVal) (json_data : PyVal) :
    Except ClientError Response × List Event :=
  request env cfg "PATCH" url headers data json_data

/-- Status code of a pipeline result, when it is a `Response`. -/
def resStatus : Except ClientError Response → Option Nat
  | .ok r => some r.status_code
  | .error _ => none

/-- Payload of a pipeline result, when it is a `Response`. -/
def resPayload : Except ClientError Response → Option String
  | .ok r => some r.payload
  | .error _ => none

/-- Headers carried by the first `sent` event of a trace. -/
def firstSentHeaders : List Event → Option HMap
  | [] => none
  | .sent _ _ _ _ _ _ hs :: _ => some hs
  | _ :: t => firstSentHeaders t

/-- Body carried by the first `sent` event of a trace. -/
def firstSentBody : List Event → Option PyVal
  | [] => none
  | .sent _ _ _ _ _ b _ :: _ => some b
  | _ :: t => firstSentBody t

/-- Number of `sent` events in a trace (network calls made). -/
def countSent (evs : List Event) : Nat :=
  (evs.filter fun e => match e with | .sent _ _ _ _ _ _ _ => true | _ => false).length

/-- Number of `opened` events in a trace (connections created). -/
def countOpened (evs : List Event) : Nat :=
  (evs.filter fun e => match e with | .opened _ => true | _ => false).length

/-- Number of `closed` events in a trace (connections closed). -/
def countClosed (evs : List Event) : Nat :=
  (evs.filter fun e => match e with | .closed _ => true | _ => false).length

namespace HMap

theorem get?_set_self (m : HMap) (k v : String) : (m.set k v).get? k = some v := by
  induction m with
  | nil => simp [set, get?]
  | cons p t ih =>
    obtain ⟨k0, v0⟩ := p
    by_cases h : k0 = k
    · simp [set, get?, h]
    · simp [set, get?, h, ih]

theorem get?_set_ne (m : HMap) (k v k1 : String) (h : k1 ≠ k) :
    (m.set k v).get? k1 = m.get? k1 := by
  induction m with
  | nil => simp [set, get?, Ne.symm h]
  | cons p t ih =>
    obtain ⟨k0, v0⟩ := p
    by_cases h0 : k0 = k
    · subst h0
      simp [set, get?, Ne.symm h]
    · simp [set, get?, h0, ih]

theorem get?_eq_none_of_not_mem (m : HMap) (k : String)
    (h : k ∉ m.map Prod.fst) : m.get? k = none := by
  induction m with
  | nil => simp [get?]
  | cons p t ih =>
    obtain ⟨k0, v0⟩ := p
    simp only [List.map_cons, List.mem_cons] at h
    push_neg at h
    simp [get?, Ne.symm h.1, ih h.2]

theorem get?_foldl_set_of_none (b : HMap) (k : String) (hb : b.get? k = none) :
    ∀ a : HMap, (b.foldl (fun acc p => acc.set p.1 p.2) a).get? k = a.get? k := by
  induction b with
  | nil => intro a; simp [List.foldl]
  | cons p t ih =>
    intro a
    obtain ⟨k0, v0⟩ := p
    simp only [get?] at hb
    by_cases h0 : k0 = k
    · simp [h0] at hb
    · simp only [h0, if_false] at hb
      simp only [List.foldl]
      rw [ih hb, get?_set_ne a k0 v0 k (fun h => h0 h.symm)]

theorem get?_merge_of_none (a b : HMap) (k : String) (hb : b.get? k = none) :
    (merge a b).get? k = a.get? k :=
  get?_foldl_set_of_none b k hb a

theorem get?_merge_of_some (a b : HMap) (k v : String)
    (hnd : (b.map Prod.fst).Nodup) (hb : b.get? k = some v) :
    (merge a b).get? k = some v := by
  induction b generalizing a with
  | nil => simp [get?] at hb
  | cons p t ih =>
    obtain ⟨k0, v0⟩ := p
    simp only [List.map_cons, List.nodup_cons] at hnd
    by_cases h0 : k0 = k
    · subst h0
      have hv : v0 = v := by simpa [get?] using hb
      subst hv
      have ht : get? t k0 = none := get?_eq_none_of_not_mem t k0 hnd.1
      show (t.foldl (fun acc p => acc.set p.1 p.2) (a.set k0 v0)).get? k0 = some v0
      rw [get?_foldl_set_of_none t k0 ht, get?_set_self]
    · have hb1 : get? t k = some v := by simpa [get?, h0] using hb
      exact ih (a.set k0 v0) hnd.2 hb1

end HMap

theorem requestAux_neg (env : Env) (cfg : Config) (method url : String)
    (headers : Option HMap) (json_data data : PyVal) (m : Int)
    (allow : Option Bool) (cid : Nat) (hm : m < 0) :
    requestAux env cfg method url headers json_data data m allow cid =
      (.error .tooManyRedirects, []) := by
  rw [requestAux]
  simp [hm]

theorem requestAux_unfold_pnone (env : Env) (cfg : Config) (method url : String)
    (headers : Option HMap) (data : PyVal) (m : Int) (allow : Option Bool) (cid : Nat)
    (sc ho pa : String)
    (hm : ¬ m < 0) (hconn : connect env url = .ok (sc, ho, pa)) :
    requestAux env cfg method url headers .pnone data m allow cid =
      (let hs := HMap.merge cfg.default_headers (headers.getD []);
       let body := encodeData env data;
       let resp := env.transport sc ho pa method.toUpper body hs;
       let ev : List Event := [.opened cid, .sent cid sc ho pa method.toUpper body hs];
       if resp.status ∈ redirectCodes ∧ (allow = some true ∨ (allow = none ∧ cfg.allow_redirects = some true)) then
         match resp.getheader "Location" with
         | none => (.error (.missingLocation resp.status), ev)
         | some loc =>
           if loc = "" then (.error (.missingLocation resp.status), ev)
           else
             let r := requestAux env cfg method loc (some hs) .pnone body (m - 1) none (cid + 1)
             (r.1, ev ++ [.closed cid] ++ r.2)
       else
         match decodePayload env resp with
         | .error e => (.error e, ev)
         | .ok payload => (.ok ⟨resp.status, hs, payload⟩, ev ++ [.closed cid])) := by
  rw [requestAux]
  simp only [hconn, if_neg hm]

/-- The headers `_request` actually sends: class defaults overlaid with the
caller's headers (`{**cls.default_headers, **(headers or {})}`). -/
def mergedHeaders (cfg : Config) (headers : Option HMap) : HMap :=
  HMap.merge cfg.default_headers (headers.getD [])

theorem requestAux_follow (env : Env) (cfg : Config) (method url : String)
    (headers : Option HMap) (data : PyVal) (m : Int) (allow : Option Bool) (cid : Nat)
    (sc ho pa loc : String)
    (hm : ¬ m < 0) (hconn : connect env url = .ok (sc, ho, pa))
    (hst : (env.transport sc ho pa method.toUpper (encodeData env data)
        (mergedHeaders cfg headers)).status ∈ redirectCodes)
    (hallow : allow = some true ∨ (allow = none ∧ cfg.allow_redirects = some true))
    (hloc : (env.transport sc ho pa method.toUpper (encodeData env data)
        (mergedHeaders cfg headers)).getheader "Location" = some loc)
    (hne : loc ≠ "") :
    requestAux env cfg method url headers .pnone data m allow cid =
      (let hs := mergedHeaders cfg headers
       let body := encodeData env data
       let r := requestAux env cfg method loc (some hs) .pnone body (m - 1) none (cid + 1)
       (r.1, .opened cid :: .sent cid sc ho pa method.toUpper body hs :: .closed cid :: r.2)) := by
  simp only [mergedHeaders] at hst hloc ⊢
  rw [requestAux_unfold_pnone env cfg method url headers data m allow cid sc ho pa hm hconn]
  simp only [if_pos (And.intro hst hallow), hloc, if_neg hne]
  simp

theorem requestAux_terminal (env : Env) (cfg : Config) (method url : String)
    (headers : Option HMap) (data : PyVal) (m : Int) (allow : Option Bool) (cid : Nat)
    (sc ho pa payload : String)
    (hm : ¬ m < 0) (hconn : connect env url = .ok (sc, ho, pa))
    (hnf : ¬ ((env.transport sc ho pa method.toUpper (encodeData env data)
        (mergedHeaders cfg headers)).status ∈ redirectCodes ∧
        (allow = some true ∨ (allow = none ∧ cfg.allow_redirects = some true))))
    (hdec : decodePayload env (env.transport sc ho pa method.toUpper (encodeData env data)
        (mergedHeaders cfg headers)) = .ok payload) :
    requestAux env cfg method url headers .pnone data m allow cid =
      (let hs := mergedHeaders cfg headers
       let body := encodeData env data
       (.ok ⟨(env.transport sc ho pa method.toUpper body hs).status, hs, payload⟩,
        [.opened cid, .sent cid sc ho pa method.toUpper body hs, .closed cid])) := by
  simp only [mergedHeaders] at hnf hdec ⊢
  rw [requestAux_unfold_pnone env cfg method url headers data m allow cid sc ho pa hm hconn]
  simp only [if_neg hnf, hdec]
  simp

theorem requestAux_decode_error (env : Env) (cfg : Config) (method url : String)
    (headers : Option HMap) (data : PyVal) (m : Int) (allow : Option Bool) (cid : Nat)
    (sc ho pa : String) (e : ClientError)
    (hm : ¬ m < 0) (hconn : connect env url = .ok (sc, ho, pa))
    (hnf : ¬ ((env.transport sc ho pa method.toUpper (encodeData env data)
        (mergedHeaders cfg headers)).status ∈ redirectCodes ∧
        (allow = some true ∨ (allow = none ∧ cfg.allow_redirects = some true))))
    (hdec : decodePayload env (env.transport sc ho pa method.toUpper (encodeData env data)
        (mergedHeaders cfg headers)) = .error e) :
    requestAux env cfg method url headers .pnone data m allow cid =
      (let hs := mergedHeaders cfg headers
       let body := encodeData env data
       (.error e, [.opened cid, .sent cid sc ho pa method.toUpper body hs])) := by
  simp only [mergedHeaders] at hnf hdec ⊢
  rw [requestAux_unfold_pnone env cfg method url headers data m allow cid sc ho pa hm hconn]
  simp only [if_neg hnf, hdec]

/-- Byte encoding used by the concrete witness environments: code points. -/
def toBytes (s : String) : List Nat := s.data.map Char.toNat

/-- Byte decoding used by the concrete witness environments. -/
def ofBytes (b : List Nat) : String := String.mk (b.map Char.ofNat)

/-- A concrete environment: every URL parses as plain http with host equal
to the raw URL, and the transport answers 200 with a gzip-encoded empty
body. -/
def envGzipId : Env where
  urlparse := fun u => ⟨"http", u, "/", ""⟩
  transport := fun _ _ _ _ _ _ =>
    ⟨200, fun k => if k = "Content-Encoding" then some "gzip" else none, []⟩
  dumps := fun _ => "null"
  gzip := fun b => some b
  deflate := fun b => some b
  utf8encode := toBytes
  utf8decode := ofBytes

/-- Claim C4: payload decoding fails with `UnsupportedEncoding` for every
`Content-Encoding` value that is not exactly `"gzip"` or `"deflate"`,
including an absent header; it never returns the raw bytes as text. -/
theorem c4_decode_rejects_other_encodings (env : Env) (resp : HResp)
    (e : Option String) (henc : resp.getheader "Content-Encoding" = e)
    (hgz : e ≠ some "gzip") (hdf : e ≠ some "deflate") :
    decodePayload env resp = .error (.unsupportedEncoding e) := by
  simp [decodePayload, henc, hgz, hdf]

/-- A response with no `Content-Encoding` header at all. -/
def respNoEnc : HResp := ⟨200, fun _ => none, [1, 2, 3]⟩

/-- Witness for C4: a response with no `Content-Encoding` header fails. -/
theorem c4_witness :
    decodePayload envGzipId respNoEnc = .error (.unsupportedEncoding none) :=
  c4_decode_rejects_other_encodings envGzipId respNoEnc none rfl
    (by simp) (by simp)

/-- Claim C8: the `json` accessor returns the parsed value when the payload
parses, an explicit `none` (not an error) when parsing fails, and is pure:
repeated accesses on the same `Response` agree. -/
theorem c8_json_accessor (loads : String → Except String Json) (r : Response) :
    (∀ j, loads r.payload = .ok j → Response.json loads r = some j) ∧
    (∀ e, loads r.payload = .error e → Response.json loads r = none) ∧
    Response.json loads r = Response.json loads r := by
  refine ⟨?_, ?_, rfl⟩ <;> intro x hx <;> simp [Response.json, hx]

/-- A concrete `json.loads` model for the witness: parses the one document
`\x7b"a": 1\x7d` and raises on everything else. -/
def loadsW : String → Except String Json := fun s =>
  if s = "\x7b\"a\": 1\x7d" then .ok (Json.obj [("a", Json.num 1)])
  else .error "Expecting value"

/-- Witness for C8: the spec's two scenarios, a parsing payload and the
non-JSON payload `\x7bnot json`. -/
theorem c8_witness :
    Response.json loadsW ⟨200, [], "\x7b\"a\": 1\x7d"⟩ =
      some (Json.obj [("a", Json.num 1)]) ∧
    Response.json loadsW ⟨200, [], "\x7bnot json"⟩ = none := by
  constructor
  · exact (c8_json_accessor loadsW ⟨200, [], "\x7b\"a\": 1\x7d"⟩).1 _
      (by simp [loadsW])
  · exact (c8_json_accessor loadsW ⟨200, [], "\x7bnot json"⟩).2.1 "Expecting value"
      (by simp [loadsW])

/-- Claim C9: decoding a body that is the gzip compression of the UTF-8
encoding of a text, under header exactly `"gzip"`, returns the original
text (stated with the decompress/decode inverses as hypotheses on the
external codecs). -/
theorem c9_gzip_roundtrip (env : Env) (resp : HResp) (text : String)
    (henc : resp.getheader "Content-Encoding" = some "gzip")
    (hgz : env.gzip resp.body = some (env.utf8encode text))
    (hutf : env.utf8decode (env.utf8encode text) = text) :
    decodePayload env resp = .ok text := by
  simp [decodePayload, henc, hgz, hutf]

/-- A concrete gzip-encoded response carrying the text `hello`. -/
def respHello : HResp :=
  ⟨200, fun k => if k = "Content-Encoding" then some "gzip" else none,
   toBytes "hello"⟩

/-- Witness for C9 at the concrete text `hello`. -/
theorem c9_witness : decodePayload envGzipId respHello = .ok "hello" :=
  c9_gzip_roundtrip envGzipId respHello "hello" rfl rfl (by decide)

/-- Claim C10: `init` can only ever turn the class-level redirect default
on: any argument other than `True` leaves the flag unchanged, and once the
flag is `True` no later `init` call can unset it. -/
theorem c10_init_redirect_monotone (cfg : Config) (custom : Option HMap)
    (a : Option Bool) :
    ((ClientBase.init custom a cfg).allow_redirects =
      if a = some true then some true else cfg.allow_redirects) ∧
    (a ≠ some true →
      (ClientBase.init custom a cfg).allow_redirects = cfg.allow_redirects) ∧
    (cfg.allow_redirects = some true →
      (ClientBase.init custom a cfg).allow_redirects = some true) := by
  refine ⟨rfl, ?_, ?_⟩
  · intro h
    simp [ClientBase.init, h]
  · intro h
    by_cases ha : a = some true <;> simp [ClientBase.init, ha, h]

/-- Witness for C10: `init` with `False` on an already-`True` flag keeps it
`True`, and `init` with `None` on the initial state keeps it unset. -/
theorem c10_witness :
    (ClientBase.init none (some false) ⟨[], some true⟩).allow_redirects = some true ∧
    (ClientBase.init none none initialConfig).allow_redirects = none := by
  constructor
  · exact (c10_init_redirect_monotone ⟨[], some true⟩ none (some false)).2.2 rfl
  · exact (c10_init_redirect_monotone initialConfig none none).2.1 (by simp)

/-- Claim C7: URL resolution defaults a missing scheme to `http` and a
missing path to `/`, appends a non-empty query as `?query`, succeeds for
the two supported schemes, and fails with `UnsupportedScheme` for any
other scheme. -/
theorem c7_url_resolution (env : Env) (raw : String) :
    ((env.urlparse raw).scheme = "" → effScheme (env.urlparse raw) = "http") ∧
    ((env.urlparse raw).path = "" → (env.urlparse raw).query = "" →
      fullPath (env.urlparse raw) = "/") ∧
    ((env.urlparse raw).query ≠ "" → fullPath (env.urlparse raw) =
      (if (env.urlparse raw).path = "" then "/" else (env.urlparse raw).path) ++
        "?" ++ (env.urlparse raw).query) ∧
    (effScheme (env.urlparse raw) = "http" ∨ effScheme (env.urlparse raw) = "https" →
      connect env raw = .ok (effScheme (env.urlparse raw),
        (env.urlparse raw).netloc, fullPath (env.urlparse raw))) ∧
    (effScheme (env.urlparse raw) ≠ "http" → effScheme (env.urlparse raw) ≠ "https" →
      connect env raw = .error (.unsupportedScheme (effScheme (env.urlparse raw)))) := by
  refine ⟨?_, ?_, ?_, ?_, ?_⟩
  · intro h
    simp [effScheme, h]
  · intro hp hq
    simp [fullPath, hp, hq]
  · intro hq
    simp [fullPath, hq]
  · rintro (h | h) <;> simp [connect, h]
  · intro h1 h2
    simp [connect, h1, h2]

/-- An environment whose parser returns a relative-looking URL (no scheme,
path `/p`, query `q`) for most inputs and an `ftp` URL for `ftp://h`. -/
def envParse : Env where
  urlparse := fun u =>
    if u = "ftp://h" then ⟨"ftp", "h", "", ""⟩ else ⟨"", "h", "/p", "q"⟩
  transport := fun _ _ _ _ _ _ =>
    ⟨200, fun k => if k = "Content-Encoding" then some "gzip" else none, []⟩
  dumps := fun _ => "null"
  gzip := fun b => some b
  deflate := fun b => some b
  utf8encode := toBytes
  utf8decode := ofBytes

/-- Witness for C7: a scheme-less URL resolves to http with path `/p?q`,
and an `ftp` URL fails with `UnsupportedScheme`. -/
theorem c7_witness :
    connect envParse "h/p?q" = .ok ("http", "h", "/p?q") ∧
    connect envParse "ftp://h" = .error (.unsupportedScheme "ftp") := by
  constructor
  · exact (c7_url_resolution envParse "h/p?q").2.2.2.1 (Or.inl (by decide))
  · exact (c7_url_resolution envParse "ftp://h").2.2.2.2 (by decide) (by decide)

/-- Claim C6: the headers actually sent are the configuration defaults
overlaid with the caller's headers — the caller's value wins on every key
present in both, keys only in the defaults are preserved unchanged — and
the pipeline's first transport call carries exactly that merge (stated for
a call without a structured-JSON body, whose separate `Content-Type`
override is the subject of C2). -/
theorem c6_header_merge (env : Env) (cfg : Config) (method url : String)
    (h : HMap) (data : PyVal) (m : Int) (allow : Option Bool) (cid : Nat)
    (sc ho pa : String) (k : String)
    (hm : ¬ m < 0) (hconn : connect env url = .ok (sc, ho, pa))
    (hnd : (h.map Prod.fst).Nodup) :
    firstSentHeaders
        (requestAux env cfg method url (some h) .pnone data m allow cid).2 =
      some (mergedHeaders cfg (some h)) ∧
    (∀ v, h.get? k = some v → (mergedHeaders cfg (some h)).get? k = some v) ∧
    (h.get? k = none →
      (mergedHeaders cfg (some h)).get? k = cfg.default_headers.get? k) := by
  refine ⟨?_, ?_, ?_⟩
  · rw [requestAux_unfold_pnone env cfg method url (some h) data m allow cid
      sc ho pa hm hconn]
    simp only [mergedHeaders, Option.getD]
    split
    · split
      · simp [firstSentHeaders]
      · split <;> simp [firstSentHeaders]
    · split <;> simp [firstSentHeaders]
  · intro v hv
    simpa [mergedHeaders] using
      HMap.get?_merge_of_some cfg.default_headers h k v hnd hv
  · intro hv
    simpa [mergedHeaders] using
      HMap.get?_merge_of_none cfg.default_headers h k hv

/-- Configuration default headers `X: 1`, as in the spec's merge scenario. -/
def cfgX : Config := ⟨[("X", "1")], none⟩

/-- Caller-supplied headers `X: 2, Y: 3`, as in the spec's merge scenario. -/
def callerXY : HMap := [("X", "2"), ("Y", "3")]

/-- Witness for C6: with defaults `X: 1` and caller headers `X: 2, Y: 3`
the effective headers are exactly `X: 2, Y: 3` (caller wins, default keys
preserved), and they are what goes out on the wire. -/
theorem c6_witness :
    (firstSentHeaders
        (requestAux envGzipId cfgX "GET" "http://h" (some callerXY)
          .pnone .pnone 5 none 0).2 =
      some (mergedHeaders cfgX (some callerXY)) ∧
     (∀ v, callerXY.get? "X" = some v →
       (mergedHeaders cfgX (some callerXY)).get? "X" = some v) ∧
     (callerXY.get? "X" = none →
       (mergedHeaders cfgX (some callerXY)).get? "X" =
         cfgX.default_headers.get? "X")) ∧
    mergedHeaders cfgX (some callerXY) = [("X", "2"), ("Y", "3")] :=
  ⟨c6_header_merge envGzipId cfgX "GET" "http://h" callerXY .pnone 5 none 0
    "http" "http://h" "/" "X" (by decide) rfl (by decide), by rfl⟩

/-- Claim C5: the redirect budget strictly decreases by one on each followed
hop; a negative budget fails with `TooManyRedirects` before URL resolution
or any connection (empty trace); and budget 0 with a followed redirect
fails with `TooManyRedirects` after exactly one network call. -/
theorem c5_redirect_budget (env : Env) (cfg : Config) (method url : String)
    (headers : Option HMap) (data : PyVal) (allow : Option Bool) (cid : Nat)
    (sc ho pa loc : String) (m : Int)
    (hconn : connect env url = .ok (sc, ho, pa))
    (hst : ∀ b hs, (env.transport sc ho pa method.toUpper b hs).status ∈ redirectCodes)
    (hloc : ∀ b hs,
      (env.transport sc ho pa method.toUpper b hs).getheader "Location" = some loc)
    (hne : loc ≠ "")
    (hallow : allow = some true ∨ (allow = none ∧ cfg.allow_redirects = some true)) :
    (∀ (m1 : Int) (h1 : Option HMap) (jd d1 : PyVal) (a1 : Option Bool)
      (c1 : Nat), m1 < 0 →
      requestAux env cfg method url h1 jd d1 m1 a1 c1 =
        (.error .tooManyRedirects, [])) ∧
    (0 ≤ m → requestAux env cfg method url headers .pnone data m allow cid =
      (let hs := mergedHeaders cfg headers
       let body := encodeData env data
       let r := requestAux env cfg method loc (some hs) .pnone body (m - 1)
         none (cid + 1)
       (r.1, .opened cid :: .sent cid sc ho pa method.toUpper body hs ::
         .closed cid :: r.2))) ∧
    (requestAux env cfg method url headers .pnone data 0 allow cid).1 =
      .error .tooManyRedirects ∧
    countSent (requestAux env cfg method url headers .pnone data 0 allow cid).2 = 1 := by
  have neg : ∀ (m1 : Int) (h1 : Option HMap) (jd d1 : PyVal) (a1 : Option Bool)
      (c1 : Nat), m1 < 0 →
      requestAux env cfg method url h1 jd d1 m1 a1 c1 =
        (.error .tooManyRedirects, []) :=
    fun m1 h1 jd d1 a1 c1 hneg =>
      requestAux_neg env cfg method url h1 jd d1 m1 a1 c1 hneg
  have step : ∀ m1 : Int, 0 ≤ m1 →
      requestAux env cfg method url headers .pnone data m1 allow cid =
      (let hs := mergedHeaders cfg headers
       let body := encodeData env data
       let r := requestAux env cfg method loc (some hs) .pnone body (m1 - 1)
         none (cid + 1)
       (r.1, .opened cid :: .sent cid sc ho pa method.toUpper body hs ::
         .closed cid :: r.2)) :=
    fun m1 h1 =>
      requestAux_follow env cfg method url headers data m1 allow cid sc ho pa loc
        (by omega) hconn (hst _ _) hallow (hloc _ _) hne
  refine ⟨neg, step m, ?_, ?_⟩
  · rw [step 0 le_rfl]
    simp only []
    rw [requestAux_neg env cfg method loc _ .pnone _ (0 - 1) none (cid + 1)
      (by norm_num)]
  · rw [step 0 le_rfl]
    simp only []
    rw [requestAux_neg env cfg method loc _ .pnone _ (0 - 1) none (cid + 1)
      (by norm_num)]
    simp [countSent]

/-- An environment whose transport always answers 302 with
`Location: http://next`. -/
def envRedir : Env where
  urlparse := fun u => ⟨"http", u, "/", ""⟩
  transport := fun _ _ _ _ _ _ =>
    ⟨302, fun k => if k = "Location" then some "http://next"
      else if k = "Content-Encoding" then some "gzip" else none, []⟩
  dumps := fun _ => "null"
  gzip := fun b => some b
  deflate := fun b => some b
  utf8encode := toBytes
  utf8decode := ofBytes

/-- Witness for C5 against the always-redirecting transport with the
per-call flag `True`. -/
theorem c5_witness :
    (∀ (m1 : Int) (h1 : Option HMap) (jd d1 : PyVal) (a1 : Option Bool)
      (c1 : Nat), m1 < 0 →
      requestAux envRedir initialConfig "GET" "http://h" h1 jd d1 m1 a1 c1 =
        (.error .tooManyRedirects, [])) ∧
    (0 ≤ (3 : Int) → requestAux envRedir initialConfig "GET" "http://h" none
        .pnone .pnone 3 (some true) 0 =
      (let hs := mergedHeaders initialConfig none
       let body := encodeData envRedir .pnone
       let r := requestAux envRedir initialConfig "GET" "http://next" (some hs)
         .pnone body (3 - 1) none (0 + 1)
       (r.1, .opened 0 :: .sent 0 "http" "http://h" "/" "GET".toUpper body hs ::
         .closed 0 :: r.2))) ∧
    (requestAux envRedir initialConfig "GET" "http://h" none .pnone .pnone 0
      (some true) 0).1 = .error .tooManyRedirects ∧
    countSent (requestAux envRedir initialConfig "GET" "http://h" none .pnone
      .pnone 0 (some true) 0).2 = 1 :=
  c5_redirect_budget envRedir initialConfig "GET" "http://h" none .pnone
    (some true) 0 "http" "http://h" "/" "http://next" 3 rfl
    (by intro b hs; show (302 : Nat) ∈ redirectCodes; decide)
    (by intro b hs; rfl) (by decide) (Or.inl rfl)

/-- Step lemma: a followed redirect whose response has no `Location`
header raises `MissingRedirectTarget` before `connection.close()` is
reached — the trace ends without a `closed` event. -/
theorem requestAux_missing_location (env : Env) (cfg : Config)
    (method url : String) (headers : Option HMap) (data : PyVal) (m : Int)
    (allow : Option Bool) (cid : Nat) (sc ho pa : String)
    (hm : ¬ m < 0) (hconn : connect env url = .ok (sc, ho, pa))
    (hst : (env.transport sc ho pa method.toUpper (encodeData env data)
        (mergedHeaders cfg headers)).status ∈ redirectCodes)
    (hallow : allow = some true ∨ (allow = none ∧ cfg.allow_redirects = some true))
    (hloc : (env.transport sc ho pa method.toUpper (encodeData env data)
        (mergedHeaders cfg headers)).getheader "Location" = none) :
    requestAux env cfg method url headers .pnone data m allow cid =
      (.error (.missingLocation (env.transport sc ho pa method.toUpper
          (encodeData env data) (mergedHeaders cfg headers)).status),
       [.opened cid, .sent cid sc ho pa method.toUpper (encodeData env data)
          (mergedHeaders cfg headers)]) := by
  simp only [mergedHeaders] at hst hloc ⊢
  rw [requestAux_unfold_pnone env cfg method url headers data m allow cid
    sc ho pa hm hconn]
  simp only [if_pos (And.intro hst hallow), hloc]

/-- The JSON document of the spec scenario, `\x7b"a": 1\x7d`. -/
def jsonA1 : Json := Json.obj [("a", Json.num 1)]

/-- Claim C2 (failing evaluation): `Client.post` passes its arguments
positionally into `_request`, whose parameter order is
`(headers, json_data, data)`, so a call with `json_data = \x7b"a": 1\x7d`
and no `data` delivers the dict into the raw-`data` slot: the request goes
out with the un-serialized dict as body and without any
`Content-Type: application/json` header. -/
theorem c2_post_swaps_json_data :
    firstSentBody
        (Client.post envGzipId initialConfig "http://h" none .pnone
          (.pdict jsonA1)).2 = some (.pdict jsonA1) ∧
    firstSentHeaders
        (Client.post envGzipId initialConfig "http://h" none .pnone
          (.pdict jsonA1)).2 = some defaultHeaders ∧
    HMap.get? defaultHeaders "Content-Type" = none ∧
    (Client.post envGzipId initialConfig "http://h" none .pnone
      (.pdict jsonA1)).1 =
      .ok ⟨200, defaultHeaders, ""⟩ := by
  have e : Client.post envGzipId initialConfig "http://h" none .pnone
      (.pdict jsonA1) =
      requestAux envGzipId initialConfig "POST" "http://h" none .pnone
        (.pdict jsonA1) 5 none 0 := rfl
  have h := requestAux_terminal envGzipId initialConfig "POST" "http://h" none
    (.pdict jsonA1) 5 none 0 "http" "http://h" "/" ""
    (by norm_num) rfl (by decide) rfl
  refine ⟨?_, ?_, rfl, ?_⟩ <;> rw [e, h] <;> rfl

/-- An environment whose transport answers 200 with no `Content-Encoding`
header at all (an uncompressed response). -/
def envNoEnc : Env where
  urlparse := fun u => ⟨"http", u, "/", ""⟩
  transport := fun _ _ _ _ _ _ => ⟨200, fun _ => none, [104, 105]⟩
  dumps := fun _ => "null"
  gzip := fun b => some b
  deflate := fun b => some b
  utf8encode := toBytes
  utf8decode := ofBytes

/-- An environment whose transport answers 302 with no `Location` header. -/
def envNoLoc : Env where
  urlparse := fun u => ⟨"http", u, "/", ""⟩
  transport := fun _ _ _ _ _ _ => ⟨302, fun _ => none, []⟩
  dumps := fun _ => "null"
  gzip := fun b => some b
  deflate := fun b => some b
  utf8encode := toBytes
  utf8decode := ofBytes

/-- Claim C3 (failing evaluation): on the unsupported-encoding error path
and on the missing-`Location` error path the exception propagates before
`connection.close()` is reached, so the connection opened for the hop is
never closed (one `opened` event, zero `closed` events). -/
theorem c3_connection_leak_on_error_paths :
    (request envNoEnc initialConfig "GET" "http://h" none .pnone .pnone).1 =
      .error (.unsupportedEncoding none) ∧
    countOpened (request envNoEnc initialConfig "GET" "http://h" none .pnone
      .pnone).2 = 1 ∧
    countClosed (request envNoEnc initialConfig "GET" "http://h" none .pnone
      .pnone).2 = 0 ∧
    (requestAux envNoLoc initialConfig "GET" "http://h" none .pnone .pnone 5
      (some true) 0).1 = .error (.missingLocation 302) ∧
    countOpened (requestAux envNoLoc initialConfig "GET" "http://h" none
      .pnone .pnone 5 (some true) 0).2 = 1 ∧
    countClosed (requestAux envNoLoc initialConfig "GET" "http://h" none
      .pnone .pnone 5 (some true) 0).2 = 0 := by
  have e : request envNoEnc initialConfig "GET" "http://h" none .pnone .pnone =
      requestAux envNoEnc initialConfig "GET" "http://h" none .pnone .pnone
        5 none 0 := rfl
  have h1 := requestAux_decode_error envNoEnc initialConfig "GET" "http://h"
    none .pnone 5 none 0 "http" "http://h" "/" (.unsupportedEncoding none)
    (by norm_num) rfl (by decide) rfl
  have h2 := requestAux_missing_location envNoLoc initialConfig "GET"
    "http://h" none .pnone 5 (some true) 0 "http" "http://h" "/"
    (by norm_num) rfl (by decide) (Or.inl rfl) rfl
  refine ⟨?_, ?_, ?_, ?_, ?_, ?_⟩
  · rw [e, h1]
  · rw [e, h1]
    rfl
  · rw [e, h1]
    rfl
  · rw [h2]
    rfl
  · rw [h2]
    rfl
  · rw [h2]
    rfl

/-- A 302 response redirecting to `loc`, with a gzip body reading
`redirected`. -/
def redirResp (loc : String) : HResp :=
  ⟨302, fun k => if k = "Location" then some loc
    else if k = "Content-Encoding" then some "gzip" else none,
   toBytes "redirected"⟩

/-- A chain environment: host `u0` redirects to `u1`, `u1` redirects to
`u2`, and `u2` answers 200 with gzip payload `terminal-ok`. -/
def envChain : Env where
  urlparse := fun u => ⟨"http", u, "/", ""⟩
  transport := fun _ ho _ _ _ _ =>
    if ho = "u0" then redirResp "u1"
    else if ho = "u1" then redirResp "u2"
    else ⟨200, fun k => if k = "Content-Encoding" then some "gzip" else none,
      toBytes "terminal-ok"⟩
  dumps := fun _ => "null"
  gzip := fun b => some b
  deflate := fun b => some b
  utf8encode := toBytes
  utf8decode := ofBytes

/-- Claim C1 (counterexample): on the chain u0 → u1 → u2 (N = 2 redirects,
budget 5, terminal status 200 with payload `terminal-ok`), a request with
the per-call redirect-allow flag `True` and the configuration default
unset stops after the first hop: it returns the second redirect response
(status 302, payload `redirected`), not the terminal response — because
`_redirect` does not pass `allow_redirects` into the recursive
`_request` call. -/
theorem c1_counterexample :
    resStatus (requestAux envChain initialConfig "GET" "u0" none .pnone .pnone
      5 (some true) 0).1 = some 302 ∧
    resPayload (requestAux envChain initialConfig "GET" "u0" none .pnone .pnone
      5 (some true) 0).1 = some "redirected" ∧
    (envChain.transport "http" "u2" "/" "GET" .pnone []).status = 200 ∧
    decodePayload envChain (envChain.transport "http" "u2" "/" "GET" .pnone [])
      = .ok "terminal-ok" ∧
    ((2 : Int) < 5) := by
  have h1 := requestAux_follow envChain initialConfig "GET" "u0" none .pnone 5
    (some true) 0 "http" "u0" "/" "u1" (by norm_num) rfl (by decide)
    (Or.inl rfl) (by decide) (by decide)
  have h2 := requestAux_terminal envChain initialConfig "GET" "u1"
    (some (mergedHeaders initialConfig none)) (encodeData envChain .pnone)
    (5 - 1) none (0 + 1) "http" "u1" "/" "redirected" (by norm_num) rfl
    (by decide) rfl
  refine ⟨?_, ?_, rfl, rfl, by norm_num⟩
  · rw [h1]
    simp only [h2]
    rfl
  · rw [h1]
    simp only [h2]
    rfl

/-- Claim C1 (amended): the per-call redirect-allow flag governs only the
first hop, since `_redirect` leaves `allow_redirects` at its default
`None` in the recursive call; later hops follow the configuration default.
Hence when the configuration-level default flag is `True`, a call with the
per-call flag `True` or unset follows every hop of a chain of N redirects
(N < remaining budget) and returns the terminal hop's status code and
decoded payload. -/
theorem c1_amended_chain (env : Env) (cfg : Config) (method payload : String)
    (hcfg : cfg.allow_redirects = some true) :
    ∀ (N : Nat) (urls sc ho pa : Nat → String) (sts : Nat → Nat)
      (headers : Option HMap) (data : PyVal) (allow : Option Bool)
      (m : Int) (cid : Nat),
    (∀ i, i ≤ N → connect env (urls i) = .ok (sc i, ho i, pa i)) →
    (∀ i, i < N → ∀ b hs,
      (env.transport (sc i) (ho i) (pa i) method.toUpper b hs).status ∈
        redirectCodes ∧
      (env.transport (sc i) (ho i) (pa i) method.toUpper b hs).getheader
        "Location" = some (urls (i + 1))) →
    (∀ i, i < N → urls (i + 1) ≠ "") →
    (∀ b hs,
      (env.transport (sc N) (ho N) (pa N) method.toUpper b hs).status = sts N ∧
      decodePayload env
        (env.transport (sc N) (ho N) (pa N) method.toUpper b hs) =
          .ok payload) →
    sts N ∉ redirectCodes →
    (allow = some true ∨ allow = none) →
    (N : Int) < m →
    resStatus
        (requestAux env cfg method (urls 0) headers .pnone data m allow cid).1 =
      some (sts N) ∧
    resPayload
        (requestAux env cfg method (urls 0) headers .pnone data m allow cid).1 =
      some payload := by
  intro N
  induction N with
  | zero =>
    intro urls sc ho pa sts headers data allow m cid hconn hred hne hterm
      htermst hallow hm
    have hm0 : ¬ m < 0 := by omega
    have ht := hterm (encodeData env data) (mergedHeaders cfg headers)
    have hnf : ¬ ((env.transport (sc 0) (ho 0) (pa 0) method.toUpper
        (encodeData env data) (mergedHeaders cfg headers)).status ∈
          redirectCodes ∧
        (allow = some true ∨ (allow = none ∧ cfg.allow_redirects = some true))) := by
      intro hc
      rw [ht.1] at hc
      exact htermst hc.1
    rw [requestAux_terminal env cfg method (urls 0) headers data m allow cid
      (sc 0) (ho 0) (pa 0) payload hm0 (hconn 0 le_rfl) hnf ht.2]
    refine ⟨?_, rfl⟩
    simp [resStatus, ht.1]
  | succ n ih =>
    intro urls sc ho pa sts headers data allow m cid hconn hred hne hterm
      htermst hallow hm
    have hm0 : ¬ m < 0 := by
      have : (0 : Int) ≤ (n : Int) := Int.ofNat_nonneg n
      omega
    have hr := hred 0 (Nat.succ_pos n) (encodeData env data)
      (mergedHeaders cfg headers)
    have hallow0 : allow = some true ∨
        (allow = none ∧ cfg.allow_redirects = some true) := by
      rcases hallow with h | h
      · exact Or.inl h
      · exact Or.inr ⟨h, hcfg⟩
    rw [requestAux_follow env cfg method (urls 0) headers data m allow cid
      (sc 0) (ho 0) (pa 0) (urls 1) hm0 (hconn 0 (Nat.zero_le _)) hr.1 hallow0
      hr.2 (hne 0 (Nat.succ_pos n))]
    exact ih (fun i => urls (i + 1)) (fun i => sc (i + 1)) (fun i => ho (i + 1))
      (fun i => pa (i + 1)) (fun i => sts (i + 1))
      (some (mergedHeaders cfg headers)) (encodeData env data) none (m - 1)
      (cid + 1)
      (fun i hi => hconn (i + 1) (Nat.succ_le_succ hi))
      (fun i hi => hred (i + 1) (Nat.succ_lt_succ hi))
      (fun i hi => hne (i + 1) (Nat.succ_lt_succ hi))
      hterm htermst (Or.inr rfl)
      (by push_cast at hm ⊢; omega)

/-- Class state after `init(allow_redirects=True)`: the redirect default
is on. -/
def cfgRedirOn : Config := ⟨defaultHeaders, some true⟩

/-- The concrete chain's URLs, u0 → u1 → u2. -/
def urlsW : Nat → String
  | 0 => "u0"
  | 1 => "u1"
  | _ => "u2"

/-- The concrete chain's statuses: two redirects, then 200. -/
def stsW : Nat → Nat
  | 0 => 302
  | 1 => 302
  | _ => 200

/-- Witness for the amended C1: with the configuration default flag `True`,
the chain u0 → u1 → u2 is followed to the end and the terminal status 200
and payload `terminal-ok` are returned. -/
theorem c1_amended_witness :
    resStatus (requestAux envChain cfgRedirOn "GET" (urlsW 0) none .pnone
      .pnone 5 (some true) 0).1 = some (stsW 2) ∧
    resPayload (requestAux envChain cfgRedirOn "GET" (urlsW 0) none .pnone
      .pnone 5 (some true) 0).1 = some "terminal-ok" :=
  c1_amended_chain envChain cfgRedirOn "GET" "terminal-ok" rfl 2 urlsW
    (fun _ => "http") urlsW (fun _ => "/") stsW none .pnone (some true) 5 0
    (fun _ _ => rfl)
    (by intro i hi b hs
        interval_cases i <;>
          exact ⟨List.Mem.tail _ (List.Mem.head _), rfl⟩)
    (by intro i hi
        interval_cases i <;> decide)
    (fun _ _ => ⟨rfl, rfl⟩)
    (by decide) (Or.inl rfl) (by norm_num)
